import Mathlib

/-!
Verification development for the Remote Query Executor
(src/src/QueryPipeline/RemoteQueryExecutor.cpp).

The development shallowly embeds the synchronous path of the executor:
the block adapter (adaptBlockStructure), packet dispatch (processPacket),
the send/read/finish/cancel lifecycle and the duplicate-UUID retry.
Column values, type identifiers, column names, remote addresses and part
UUIDs are represented as natural numbers; the block structure (constant
versus materialized columns, lengths, auxiliary info) is modelled exactly.

The read loop is driven by an explicit fuel argument so that every
function is a structurally recursive, executable definition; fuel
exhaustion is a distinguished result that no theorem depends on.
-/

namespace RQE

/-- Abstract column value (payloads of cells). -/
abbrev Val := Nat

/-- Abstract data-type identifier. -/
abbrev Ty := Nat

/-- Abstract column name. -/
abbrev ColName := Nat

/-- Abstract remote address. -/
abbrev Addr := Nat

/-- Abstract part UUID. -/
abbrev PartUUID := Nat

/-- The payload of one column: either a constant column (one value and a
declared length, as in ColumnConst) or a materialized column given by its
list of values. -/
inductive ColData where
  | const (v : Val) (len : Nat)
  | plain (vs : List Val)
deriving DecidableEq

/-- isColumnConst on the payload. -/
def isConstData : ColData → Bool
  | .const _ _ => true
  | .plain _ => false

/-- IColumn::size. -/
def colLength : ColData → Nat
  | .const _ len => len
  | .plain vs => vs.length

/-- IColumn::cut(0, 1): keep the first value. -/
def cutData : ColData → ColData
  | .const v _ => .const v 1
  | .plain vs => .plain (vs.take 1)

/-- IColumn::cloneResized: shrink, or pad with default values. -/
def resizeData : ColData → Nat → ColData
  | .const v _, n => .const v n
  | .plain vs, n => .plain (vs.take n ++ List.replicate (n - vs.length) 0)

/-- First value of a column (used by ColumnConst::create on a cut column). -/
def firstValData : ColData → Val
  | .const v _ => v
  | .plain vs => vs.headD 0

/-- A column of a block: name, declared type, payload. -/
structure Column where
  name : ColName
  ty : Ty
  data : ColData
deriving DecidableEq

/-- Interpreters/castColumn.h is outside the specified sources.
Modelled from the spec: a pure value cast, not structural.  Casting a
column to its own declared type returns it unchanged; casting to another
type retags the declared type, carrying the untyped payload unchanged
(the value conversion itself belongs to the external cast machinery). -/
def castColumn (c : Column) (t : Ty) : Column :=
  if c.ty = t then c else { c with ty := t }

/-- BlockInfo: auxiliary info carried by a block. -/
structure BlockInfo where
  bucket_num : Int
  is_overflows : Bool
deriving DecidableEq

/-- A block: a list of columns plus auxiliary info. -/
structure Block where
  cols : List Column
  info : BlockInfo
deriving DecidableEq

/-- The default-constructed empty block. -/
def Block.empty : Block := { cols := [], info := { bucket_num := -1, is_overflows := false } }

/-- Block::rows: the size of the first column (0 for a block with no columns). -/
def Block.rows (b : Block) : Nat :=
  match b.cols with
  | [] => 0
  | c :: _ => colLength c.data

/-- Block::operator bool: the block has at least one column. -/
def Block.nonEmpty (b : Block) : Bool := !b.cols.isEmpty

/-- Block::getByName: first column with the given name. -/
def Block.getByName (b : Block) (n : ColName) : Option Column :=
  b.cols.find? (fun c => c.name == n)

/-- Block::has. -/
def Block.has (b : Block) (n : ColName) : Bool := (b.getByName n).isSome

/-- The body of the adaptBlockStructure loop for one header column:
produce the payload of the output column named elem.name.
Returns none where the source would raise (getByName on a missing
column). -/
def adaptColumnData (block : Block) (elem : Column) : Option ColData :=
  if isConstData elem.data then
    if 0 < block.rows ∧ block.has elem.name then
      (block.getByName elem.name).map fun bc =>
        let column := castColumn { bc with data := cutData bc.data } elem.ty
        if isConstData column.data then resizeData column.data block.rows
        else ColData.const (firstValData column.data) block.rows
    else some (resizeData elem.data block.rows)
  else
    (block.getByName elem.name).map fun bc => (castColumn bc elem.ty).data

/-- The adaptBlockStructure loop over the header columns, inserting one
output column (with the header's name and type) per header column. -/
def adaptCols (block : Block) : List Column → Option (List Column)
  | [] => some []
  | e :: es =>
    match adaptColumnData block e, adaptCols block es with
    | some d, some ds => some ({ name := e.name, ty := e.ty, data := d } :: ds)
    | _, _ => none

/-- adaptBlockStructure (RemoteQueryExecutor.cpp:164): reshape an inbound
block to the expected header; an empty header means the block is returned
unchanged; the result carries the inbound block's info. -/
def adaptBlockStructure (block header : Block) : Option Block :=
  if header.cols.isEmpty then some block
  else (adaptCols block header.cols).map fun cs => { cols := cs, info := block.info }

/-- The inbound wire packets consumed by the executor (Protocol::Server
kinds as dispatched in processPacket).  An unrecognized numeric tag is
represented by the catch-all constructor carrying the tag. -/
inductive Packet where
  | data (b : Block)
  | totals (b : Block)
  | extremes (b : Block)
  | progress
  | profileInfo
  | profileEvents (b : Block)
  | log (b : Block)
  | exceptionPacket (msg : Nat)
  | endOfStream
  | partUUIDs (uuids : List PartUUID)
  | readTaskRequest
  | mergeTreeReadTaskRequest
  | mergeTreeAllRangesAnnouncement
  | unknown (tag : Nat)
deriving DecidableEq

/-- Outbound wire activity emitted by the executor through the
connections object. -/
inductive SendEvent where
  | query
  | ignoredPartUUIDs (uuids : List PartUUID)
  | cancelPacket
  | scalars
  | externalTables
  | readTaskResponse
  | mergeTreeReadTaskResponse
  | disconnect
deriving DecidableEq

/-- The connections object (IConnections) as seen by the executor: the
pending inbound packets, the number of still-active replica connections,
the fan-out size, the remote addresses, and the packet the drain phase
would surface. -/
structure Conn where
  packets : List Packet
  active : Nat
  sizeC : Nat
  addrs : List Addr
  drainPacket : Packet
deriving DecidableEq

/-- A connections object with no usable connections (what a factory
yields when every shard is unavailable). -/
def emptyConn : Conn :=
  { packets := [], active := 0, sizeC := 0, addrs := [], drainPacket := .endOfStream }

/-- The ambient settings the executor consults. -/
structure Settings where
  skip_unavailable_shards : Bool
  enable_scalar_subquery_optimization : Bool
deriving DecidableEq

/-- The executor's boolean state-machine flags. -/
structure ExecFlags where
  sent_query : Bool
  established : Bool
  was_cancelled : Bool
  finished : Bool
  resent_query : Bool
  recreate_read_context : Bool
  got_duplicated_part_uuids : Bool
  got_exception_from_replica : Bool
  got_unknown_packet_from_replica : Bool
deriving DecidableEq

/-- The whole executor state together with its environment: the live
connections, the deferred connection factories (one per invocation of
create_connections), the outbound trace, the query-wide part-UUID tracker,
the retry accumulator, the auxiliary result blocks, the presence of the
optional collaborators, and the ambient per-thread queues. -/
structure St where
  ex : ExecFlags
  header : Block
  settings : Settings
  conn : Option Conn
  factories : List Conn
  trace : List SendEvent
  seenUUIDs : List PartUUID
  duplicated_part_uuids : List PartUUID
  totals : Block
  extremes : Block
  read_context : Bool
  rc_cancelled : Bool
  hasTaskIterator : Bool
  hasCoordinator : Bool
  logQueuePresent : Bool
  profileQueuePresent : Bool
  profilePushOk : Bool
  pushedLogs : List Block
  ext_cancelled : Bool
deriving DecidableEq

/-- Errors raised by the executor (ErrorCodes and rethrown remote
exceptions).  The unknown-packet error carries the dumped remote address
list, as the thrown message does. -/
inductive Err where
  | duplicatedPartUUIDs
  | unknownPacket (tag : Nat) (addrs : List Addr)
  | remoteException (msg : Nat)
  | systemError
  | logicalError
  | columnNotFound
deriving DecidableEq

/-- ReadResult variants surfaced by the synchronous path.  Modelled from
the spec (the declaring header is outside the specified sources): Data
carries a block, ParallelReplicasToken carries nothing, Nothing is the
internal marker that dispatch produced no caller-visible result. -/
inductive ReadResult where
  | data (b : Block)
  | parallelReplicasToken
  | nothing
deriving DecidableEq

/-- Result of one processPacket dispatch: either a ReadResult or a raised
error (the executor object keeps its mutated flags either way). -/
inductive PRes where
  | result (r : ReadResult)
  | err (e : Err)
deriving DecidableEq

/-- Result of a read call.  fuelOut (fuel exhausted) and noPacket (the
scripted environment has no further inbound packet) are artifacts of the
finite model; asyncPath marks a continuation into readAsync, whose
suspend/resume driver lives outside the specified sources. -/
inductive RRes where
  | ok (r : ReadResult)
  | err (e : Err)
  | fuelOut
  | noPacket
  | asyncPath
deriving DecidableEq

/-- Append one outbound wire event. -/
def emit (e : SendEvent) (st : St) : St := { st with trace := st.trace ++ [e] }

/-- connections->size() (0 before the factory ran). -/
def connSize (st : St) : Nat := (st.conn.map Conn.sizeC).getD 0

/-- connections->hasActiveConnections(). -/
def hasActiveSt (st : St) : Bool := (st.conn.map fun c => decide (0 < c.active)).getD false

/-- connections->dumpAddresses(). -/
def dumpAddresses (st : St) : List Addr := (st.conn.map Conn.addrs).getD []

/-- needToSkipUnavailableShard: the skip_unavailable_shards setting with a
zero-size fan-out (the condition is spelled out inline at
RemoteQueryExecutor.cpp:302). -/
def needToSkipUnavailableShard (st : St) : Bool :=
  st.settings.skip_unavailable_shards && connSize st == 0

/-- RemoteQueryExecutor::isQueryPending (RemoteQueryExecutor.cpp:695). -/
def isQueryPending (st : St) : Bool := st.read_context && !st.ex.finished

/-- RemoteQueryExecutor::hasThrownException (RemoteQueryExecutor.cpp:700). -/
def hasThrownException (st : St) : Bool :=
  st.ex.got_exception_from_replica || st.ex.got_unknown_packet_from_replica

/-- create_connections: pop the next deferred factory result (an
exhausted script yields no usable connections). -/
def popFactory (st : St) : Conn × St :=
  match st.factories with
  | [] => (emptyConn, st)
  | c :: rest => (c, { st with factories := rest })

/-- receive one packet from the connections; receiving EndOfStream retires
one replica connection (MultiplexedConnections marks the replica
finished), which is what hasActiveConnections observes afterwards. -/
def receivePacket (st : St) : Option (Packet × St) :=
  match st.conn with
  | none => none
  | some c =>
    match c.packets with
    | [] => none
    | p :: rest =>
      let c' := { c with
        packets := rest,
        active := if p = .endOfStream then c.active - 1 else c.active }
      some (p, { st with conn := some c' })

/-- RemoteQueryExecutor::setPartUUIDs (RemoteQueryExecutor.cpp:487):
register the announced part UUIDs with the query-wide tracker; on
duplicates, prepend them to the retry accumulator and report failure. -/
def setPartUUIDs (uuids : List PartUUID) (st : St) : Bool × St :=
  let duplicates := uuids.filter (fun u => u ∈ st.seenUUIDs)
  let st := { st with seenUUIDs := st.seenUUIDs ++ uuids.filter (fun u => u ∉ st.seenUUIDs) }
  if duplicates.isEmpty then (true, st)
  else (false, { st with duplicated_part_uuids := duplicates ++ st.duplicated_part_uuids })

/-- RemoteQueryExecutor::processPacket (RemoteQueryExecutor.cpp:392):
dispatch one inbound packet. -/
def processPacket (p : Packet) (st : St) : St × PRes :=
  match p with
  | .mergeTreeReadTaskRequest =>
    if st.hasCoordinator then
      (emit .mergeTreeReadTaskResponse st, .result .parallelReplicasToken)
    else (st, .err .logicalError)
  | .mergeTreeAllRangesAnnouncement =>
    if st.hasCoordinator then (st, .result .parallelReplicasToken)
    else (st, .err .logicalError)
  | .readTaskRequest =>
    if st.hasTaskIterator then (emit .readTaskResponse st, .result .nothing)
    else (st, .err .logicalError)
  | .partUUIDs uuids =>
    let (ok, st) := setPartUUIDs uuids st
    if ok then (st, .result .nothing)
    else ({ st with ex := { st.ex with got_duplicated_part_uuids := true } }, .result .nothing)
  | .data b =>
    if b.nonEmpty ∧ 0 < b.rows then
      match adaptBlockStructure b st.header with
      | some r => (st, .result (.data r))
      | none => (st, .err .columnNotFound)
    else (st, .result .nothing)
  | .exceptionPacket msg =>
    ({ st with ex := { st.ex with got_exception_from_replica := true } },
      .err (.remoteException msg))
  | .endOfStream =>
    if hasActiveSt st then (st, .result .nothing)
    else ({ st with ex := { st.ex with finished := true } }, .result (.data Block.empty))
  | .progress => (st, .result .nothing)
  | .profileInfo => (st, .result .nothing)
  | .totals b =>
    let st := { st with totals := b }
    if b.nonEmpty then
      match adaptBlockStructure b st.header with
      | some r => ({ st with totals := r }, .result .nothing)
      | none => (st, .err .columnNotFound)
    else (st, .result .nothing)
  | .extremes b =>
    let st := { st with extremes := b }
    if b.nonEmpty then
      match adaptBlockStructure b st.header with
      | some r => ({ st with extremes := r }, .result .nothing)
      | none => (st, .err .columnNotFound)
    else (st, .result .nothing)
  | .log b =>
    if st.logQueuePresent then ({ st with pushedLogs := st.pushedLogs ++ [b] }, .result .nothing)
    else (st, .result .nothing)
  | .profileEvents _ =>
    if st.profileQueuePresent then
      if st.profilePushOk then (st, .result .nothing) else (st, .err .systemError)
    else (st, .result .nothing)
  | .unknown tag =>
    ({ st with ex := { st.ex with got_unknown_packet_from_replica := true } },
      .err (.unknownPacket tag (dumpAddresses st)))

/-- RemoteQueryExecutor::tryCancel (RemoteQueryExecutor.cpp:671): under
the cancel mutex, set was_cancelled once; cancel the async context if one
exists; emit a Cancel packet if connections exist and the query was
sent. -/
def tryCancel (st : St) : St :=
  if st.ex.was_cancelled then st
  else
    let st := { st with
      ex := { st.ex with was_cancelled := true },
      rc_cancelled := st.rc_cancelled || st.read_context }
    if st.conn.isSome && st.ex.sent_query then emit .cancelPacket st else st

/-- RemoteQueryExecutor::cancel (RemoteQueryExecutor.cpp:586): flag the
external-table streams as cancelled; then, only when the query is pending
and no exception was thrown, tryCancel. -/
def cancelOp (st : St) : St :=
  let st := { st with ext_cancelled := true }
  if !isQueryPending st || hasThrownException st then st
  else tryCancel st

/-- The numeric protocol tag of a packet (Protocol::Server); the concrete
numbers of the recognized kinds are irrelevant here, the unrecognized
constructor carries its own tag. -/
def packetTag : Packet → Nat
  | .data _ => 1
  | .exceptionPacket _ => 2
  | .progress => 3
  | .endOfStream => 5
  | .profileInfo => 6
  | .totals _ => 7
  | .extremes _ => 8
  | .log _ => 10
  | .partUUIDs _ => 12
  | .readTaskRequest => 13
  | .profileEvents _ => 14
  | .mergeTreeReadTaskRequest => 15
  | .mergeTreeAllRangesAnnouncement => 16
  | .unknown tag => tag

/-- RemoteQueryExecutor::finish (RemoteQueryExecutor.cpp:529): no-op when
not pending or already failed; otherwise tryCancel, then drain the
connections and dispatch the drained packet. -/
def finish (st : St) : St × Option Err :=
  if !isQueryPending st || hasThrownException st then (st, none)
  else
    let st := tryCancel st
    if st.conn.isNone || !st.ex.sent_query then (st, none)
    else
      match (st.conn.map Conn.drainPacket).getD .endOfStream with
      | .endOfStream => ({ st with ex := { st.ex with finished := true } }, none)
      | .log b =>
        if st.logQueuePresent then
          ({ st with pushedLogs := st.pushedLogs ++ [b] }, none)
        else (st, none)
      | .exceptionPacket msg =>
        ({ st with ex := { st.ex with got_exception_from_replica := true } },
          some (.remoteException msg))
      | .profileEvents _ =>
        if st.profileQueuePresent then
          if st.profilePushOk then (st, none) else (st, some .systemError)
        else (st, none)
      | p =>
        ({ st with ex := { st.ex with got_unknown_packet_from_replica := true } },
          some (.unknownPacket (packetTag p) (dumpAddresses st)))

/-- RemoteQueryExecutor::sendExternalTables (RemoteQueryExecutor.cpp:608):
rebuild the per-connection external-table entries (fresh entries are not
cancelled) and send them; the pipeline construction per in-memory table is
external to the executor's control state. -/
def sendExternalTables (st : St) : St :=
  emit .externalTables { st with ext_cancelled := false }

/-- RemoteQueryExecutor::sendQuery (RemoteQueryExecutor.cpp:210): at most
once per attempt; invoke the factory; return early when the shard is to
be skipped or the query was already cancelled; otherwise send accumulated
ignored part UUIDs, the query, then scalars (if enabled) and external
tables. -/
def sendQuery (st : St) : St :=
  if st.ex.sent_query then st
  else
    let (c, st) := popFactory st
    let st := { st with conn := some c }
    if needToSkipUnavailableShard st then st
    else if st.ex.was_cancelled then st
    else
      let st := { st with ex := { st.ex with established := true, was_cancelled := false } }
      let st :=
        if st.duplicated_part_uuids.isEmpty then st
        else emit (.ignoredPartUUIDs st.duplicated_part_uuids) st
      let st := emit .query st
      let st := { st with ex := { st.ex with established := false, sent_query := true } }
      let st := if st.settings.enable_scalar_subquery_optimization then emit .scalars st else st
      sendExternalTables st

/-- Phases of the read driver: the entry of read(), the receive loop, and
restartQueryWithoutDuplicatedUUIDs. -/
inductive Mode where
  | start
  | loop
  | restart
deriving DecidableEq

/-- The synchronous read driver (RemoteQueryExecutor.cpp:296, 367): one
fuel unit per phase transition.
start: send the query if not yet sent, and return the terminal empty
  block at once when the shard is skipped.
loop: return the terminal empty block when cancelled; otherwise receive
  one packet, dispatch it, return on Data or ParallelReplicasToken, and
  restart on a pending duplicate-UUID flag.
restart: cancel and disconnect, then either resend (at most once,
  clearing sent_query and got_duplicated_part_uuids) or raise
  DuplicatedPartUUIDs; the resend re-enters read on the synchronous path
  (readAsync is outside the specified sources). -/
def readGo : Nat → Mode → St → St × RRes
  | 0, _, st => (st, .fuelOut)
  | fuel + 1, .start, st =>
    if st.ex.sent_query then readGo fuel .loop st
    else
      let st := sendQuery st
      if needToSkipUnavailableShard st then (st, .ok (.data Block.empty))
      else readGo fuel .loop st
  | fuel + 1, .loop, st =>
    if st.ex.was_cancelled then (st, .ok (.data Block.empty))
    else
      match receivePacket st with
      | none => (st, .noPacket)
      | some (p, st1) =>
        match processPacket p st1 with
        | (st2, .err e) => (st2, .err e)
        | (st2, .result (.data b)) => (st2, .ok (.data b))
        | (st2, .result .parallelReplicasToken) => (st2, .ok .parallelReplicasToken)
        | (st2, .result .nothing) =>
          if st2.ex.got_duplicated_part_uuids then readGo fuel .restart st2
          else readGo fuel .loop st2
  | fuel + 1, .restart, st =>
    let st := cancelOp st
    let st := emit .disconnect st
    if st.ex.resent_query then (st, .err .duplicatedPartUUIDs)
    else
      let st := { st with ex := { st.ex with
        resent_query := true, recreate_read_context := true,
        sent_query := false, got_duplicated_part_uuids := false } }
      if st.read_context then (st, .asyncPath) else readGo fuel .start st

/-- RemoteQueryExecutor::read (RemoteQueryExecutor.cpp:296). -/
def read (fuel : Nat) (st : St) : St × RRes := readGo fuel .start st

/-- RemoteQueryExecutor::restartQueryWithoutDuplicatedUUIDs
(RemoteQueryExecutor.cpp:367). -/
def restartQueryWithoutDuplicatedUUIDs (fuel : Nat) (st : St) : St × RRes :=
  readGo fuel .restart st

/-- Result of readBlock: the block of the first Data result, or a
propagated read outcome. -/
inductive BlockRes where
  | ok (b : Block)
  | err (e : Err)
  | fuelOut
  | noPacket
  | asyncPath
deriving DecidableEq

/-- RemoteQueryExecutor::readBlock (RemoteQueryExecutor.cpp:284): loop
over read() until a result of type Data arrives and return its block;
any other result type is discarded and the loop continues. -/
def readBlock : Nat → St → St × BlockRes
  | 0, st => (st, .fuelOut)
  | fuel + 1, st =>
    match read (fuel + 1) st with
    | (st1, .ok (.data b)) => (st1, .ok b)
    | (st1, .ok _) => readBlock fuel st1
    | (st1, .err e) => (st1, .err e)
    | (st1, .fuelOut) => (st1, .fuelOut)
    | (st1, .noPacket) => (st1, .noPacket)
    | (st1, .asyncPath) => (st1, .asyncPath)

/-- The schema of one column: name, declared type, constant marker. -/
def colSchema (c : Column) : ColName × Ty × Bool := (c.name, c.ty, isConstData c.data)

/-- Two blocks have equal schemas. -/
def schemaEq (b h : Block) : Prop := b.cols.map colSchema = h.cols.map colSchema

/-- The block invariant: every column has the block's row count. -/
def wellFormed (b : Block) : Prop := ∀ c ∈ b.cols, colLength c.data = b.rows

/-! Concrete fixtures used by the witness theorems. -/

/-- A quiescent flag assignment: the query has been sent, nothing else
has happened. -/
def baseFlags : ExecFlags :=
  { sent_query := true, established := false, was_cancelled := false, finished := false,
    resent_query := false, recreate_read_context := false, got_duplicated_part_uuids := false,
    got_exception_from_replica := false, got_unknown_packet_from_replica := false }

/-- A single live replica connection about to deliver EndOfStream. -/
def baseConn : Conn :=
  { packets := [.endOfStream], active := 1, sizeC := 1, addrs := [7], drainPacket := .endOfStream }

/-- A base executor state on the synchronous path. -/
def baseSt : St :=
  { ex := baseFlags, header := Block.empty,
    settings := { skip_unavailable_shards := false, enable_scalar_subquery_optimization := false },
    conn := some baseConn, factories := [], trace := [], seenUUIDs := [],
    duplicated_part_uuids := [], totals := Block.empty, extremes := Block.empty,
    read_context := false, rc_cancelled := false, hasTaskIterator := false,
    hasCoordinator := false, logQueuePresent := false, profileQueuePresent := false,
    profilePushOk := true, pushedLogs := [], ext_cancelled := false }

/-! ### C3: without an async read context, cancel and finish are no-ops -/

/-- Claim C3: on an executor whose read_context was never created,
isQueryPending is false, so cancel only flags the external-table data
(sending no Cancel packet) and finish returns without draining, even
while a sent query is still mid-stream. -/
theorem claim_C3 (st : St) (h : st.read_context = false) :
    isQueryPending st = false ∧
    cancelOp st = { st with ext_cancelled := true } ∧
    (cancelOp st).trace = st.trace ∧
    finish st = (st, none) := by
  have hp : isQueryPending st = false := by
    simp [isQueryPending, h]
  refine ⟨hp, ?_, ?_, ?_⟩
  · simp [cancelOp, isQueryPending, h]
  · simp [cancelOp, isQueryPending, h]
  · simp [finish, isQueryPending, h]

/-- Witness for C3: the base state has a sent, unfinished query and no
read context; cancel and finish leave the wire untouched. -/
theorem claim_C3_witness :
    baseSt.read_context = false ∧ baseSt.ex.sent_query = true ∧
    baseSt.ex.finished = false ∧
    isQueryPending baseSt = false ∧
    cancelOp baseSt = { baseSt with ext_cancelled := true } ∧
    (cancelOp baseSt).trace = baseSt.trace ∧
    finish baseSt = (baseSt, none) := by
  have h := claim_C3 baseSt rfl
  exact ⟨rfl, rfl, rfl, h.1, h.2.1, h.2.2.1, h.2.2.2⟩

/-! ### C4: zero-row Data packets are silently consumed -/

/-- Claim C4: dispatch of a Data packet whose block is empty or has zero
rows returns the internal Nothing result (block silently consumed), and a
Data result is produced only for a non-empty block with at least one row,
and only after adaptation. -/
theorem claim_C4 (st : St) (b : Block) :
    (¬(b.nonEmpty = true ∧ 0 < b.rows) →
      processPacket (.data b) st = (st, .result .nothing)) ∧
    (∀ r, (processPacket (.data b) st).2 = .result (.data r) →
      b.nonEmpty = true ∧ 0 < b.rows ∧ adaptBlockStructure b st.header = some r) := by
  constructor
  · intro h
    simp only [processPacket]
    rw [if_neg h]
  · intro r hr
    simp only [processPacket] at hr
    by_cases h : b.nonEmpty = true ∧ 0 < b.rows
    · refine ⟨h.1, h.2, ?_⟩
      rw [if_pos h] at hr
      cases ha : adaptBlockStructure b st.header with
      | none => rw [ha] at hr; simp at hr
      | some blk => rw [ha] at hr; simp at hr; rw [hr]
    · rw [if_neg h] at hr
      simp at hr

/-- Witness for C4: a one-column block with zero rows is consumed as
Nothing. -/
theorem claim_C4_witness :
    ¬((Block.mk [{ name := 0, ty := 0, data := .plain [] }] Block.empty.info).nonEmpty = true ∧
        0 < (Block.mk [{ name := 0, ty := 0, data := .plain [] }] Block.empty.info).rows) ∧
    processPacket (.data (Block.mk [{ name := 0, ty := 0, data := .plain [] }] Block.empty.info))
        baseSt = (baseSt, .result .nothing) := by
  refine ⟨by decide, ?_⟩
  exact (claim_C4 baseSt _).1 (by decide)

/-! ### C8: EndOfStream finishes exactly when no active connections remain -/

/-- Claim C8: dispatching EndOfStream sets finished and returns the
terminal empty block precisely when no active connections remain; with
active connections the packet is consumed and the read loop continues. -/
theorem claim_C8 (st : St) :
    (((processPacket .endOfStream st).1.ex.finished = true ∧
        (processPacket .endOfStream st).2 = .result (.data Block.empty)) ↔
      hasActiveSt st = false) ∧
    (hasActiveSt st = true → processPacket .endOfStream st = (st, .result .nothing)) ∧
    (∀ fuel st1, st.ex.was_cancelled = false →
      receivePacket st = some (.endOfStream, st1) →
      hasActiveSt st1 = true → st1.ex.got_duplicated_part_uuids = false →
      readGo (fuel + 1) .loop st = readGo fuel .loop st1) := by
  refine ⟨?_, ?_, ?_⟩
  · by_cases ha : hasActiveSt st = true
    · simp [processPacket, ha]
    · simp only [Bool.not_eq_true] at ha
      simp [processPacket, ha]
  · intro ha
    simp [processPacket, ha]
  · intro fuel st1 hw hr ha hd
    simp only [readGo, hw, Bool.false_eq_true, if_false, hr]
    simp [processPacket, ha, hd]

/-- Witness for C8: with two replicas, the first EndOfStream is consumed
and reading continues. -/
theorem claim_C8_witness :
    receivePacket { baseSt with conn := some { baseConn with active := 2 } } =
      some (.endOfStream,
        { baseSt with conn := some { baseConn with packets := [], active := 1 } }) ∧
    readGo 1 .loop { baseSt with conn := some { baseConn with active := 2 } } =
      readGo 0 .loop
        { baseSt with conn := some { baseConn with packets := [], active := 1 } } := by
  refine ⟨by decide, ?_⟩
  exact (claim_C8 _).2.2 0 _ rfl (by decide) (by decide) rfl

/-! ### C9: unrecognized packet tags fail with UnknownPacket -/

/-- Claim C9: dispatch of an unrecognized tag sets
got_unknown_packet_from_replica and fails with an UnknownPacket error
carrying the dumped remote address list; the drain inside finish behaves
the same way on an unrecognized drained packet. -/
theorem claim_C9 (st : St) (tag : Nat) (c : Conn) :
    processPacket (.unknown tag) st =
      ({ st with ex := { st.ex with got_unknown_packet_from_replica := true } },
        .err (.unknownPacket tag (dumpAddresses st))) ∧
    hasThrownException (processPacket (.unknown tag) st).1 = true ∧
    (isQueryPending st = true → hasThrownException st = false →
      st.conn = some c → st.ex.sent_query = true → c.drainPacket = .unknown tag →
      ∃ st', finish st = (st', some (.unknownPacket tag c.addrs)) ∧
        st'.ex.got_unknown_packet_from_replica = true) := by
  refine ⟨rfl, ?_, ?_⟩
  · simp [processPacket, hasThrownException]
  · intro hp ht hc hs hd
    have hnp : (!isQueryPending st || hasThrownException st) = false := by
      simp [hp, ht]
    simp only [finish, hnp, Bool.false_eq_true, if_false]
    by_cases hw : st.ex.was_cancelled = true
    · have htc : tryCancel st = st := by simp [tryCancel, hw]
      rw [htc]
      simp [hc, hs, hd, packetTag, dumpAddresses]
    · simp only [Bool.not_eq_true] at hw
      simp only [tryCancel, hw, Bool.false_eq_true, if_false]
      simp [hc, hs, hd, packetTag, dumpAddresses, emit]

/-- A pending executor whose drain would surface the unrecognized tag 99. -/
def unknownDrainSt : St :=
  { baseSt with
    read_context := true,
    conn := some { baseConn with drainPacket := .unknown 99 } }

/-- Witness for C9: a pending executor whose drain yields tag 99 fails
with UnknownPacket carrying the address list. -/
theorem claim_C9_witness :
    isQueryPending unknownDrainSt = true ∧
    (∃ st', finish unknownDrainSt = (st', some (.unknownPacket 99 baseConn.addrs)) ∧
      st'.ex.got_unknown_packet_from_replica = true) := by
  refine ⟨by decide, ?_⟩
  exact (claim_C9 unknownDrainSt 99 { baseConn with drainPacket := .unknown 99 }).2.2
    (by decide) (by decide) rfl rfl rfl

/-! ### C1: once the cancellation is observed, read yields only the terminal empty block -/

/-- On the early-return paths (skip or cancelled), sendQuery leaves the
executor flags untouched. -/
theorem sendQuery_cancelled_flags (st : St)
    (hs : st.ex.sent_query = false) (hw : st.ex.was_cancelled = true) :
    (sendQuery st).ex = st.ex ∧ (sendQuery st).trace = st.trace := by
  cases hf : st.factories with
  | nil =>
    unfold sendQuery popFactory
    rw [hf]
    simp only [hs, hw, Bool.false_eq_true, if_false, eq_self_iff_true, if_true]
    split
    · exact ⟨rfl, rfl⟩
    · exact ⟨rfl, rfl⟩
  | cons c rest =>
    unfold sendQuery popFactory
    rw [hf]
    simp only [hs, hw, Bool.false_eq_true, if_false, eq_self_iff_true, if_true]
    split
    · exact ⟨rfl, rfl⟩
    · exact ⟨rfl, rfl⟩

/-- Claim C1: whenever the executor has observed the cancellation
(was_cancelled is set), read returns the terminal empty block, which
carries no rows, and the flag stays observed for every later call. -/
theorem claim_C1 (fuel : Nat) (st : St) (h : st.ex.was_cancelled = true) :
    ∃ st', read (fuel + 2) st = (st', .ok (.data Block.empty)) ∧
      st'.ex.was_cancelled = true ∧ Block.empty.rows = 0 := by
  by_cases hs : st.ex.sent_query = true
  · refine ⟨st, ?_, h, rfl⟩
    simp [read, readGo, hs, h]
  · simp only [Bool.not_eq_true] at hs
    have hflags := (sendQuery_cancelled_flags st hs h).1
    refine ⟨sendQuery st, ?_, by rw [hflags]; exact h, rfl⟩
    simp only [read, readGo, hs, Bool.false_eq_true, if_false]
    by_cases hsk : needToSkipUnavailableShard (sendQuery st) = true
    · simp [hsk]
    · simp only [Bool.not_eq_true] at hsk
      simp only [hsk, Bool.false_eq_true, if_false, readGo]
      rw [hflags, h]
      simp

/-- Witness for C1: the base state with the flag observed returns the
terminal empty block from read. -/
theorem claim_C1_witness :
    ∃ st', read 2 { baseSt with ex := { baseFlags with was_cancelled := true } } =
        (st', .ok (.data Block.empty)) ∧
      st'.ex.was_cancelled = true ∧ Block.empty.rows = 0 :=
  claim_C1 0 { baseSt with ex := { baseFlags with was_cancelled := true } } rfl

/-! ### C7: skipped unavailable shards produce a terminal empty block without wire activity -/

/-- Claim C7: with skip_unavailable_shards enabled and a factory yielding
zero usable connections, sendQuery returns early sending nothing (the
query remains unsent), and the first read returns the terminal empty
block with the outbound trace untouched. -/
theorem claim_C7 (fuel : Nat) (st : St)
    (hs : st.ex.sent_query = false)
    (hskip : st.settings.skip_unavailable_shards = true)
    (hfac : (st.factories.headD emptyConn).sizeC = 0) :
    (sendQuery st).trace = st.trace ∧
    (sendQuery st).ex.sent_query = false ∧
    ∃ st', read (fuel + 1) st = (st', .ok (.data Block.empty)) ∧ st'.trace = st.trace := by
  have h1 : sendQuery st =
      { st with factories := st.factories.tail, conn := some (st.factories.headD emptyConn) } := by
    cases hf : st.factories with
    | nil =>
      unfold sendQuery popFactory
      rw [hf]
      simp [hs, hf, needToSkipUnavailableShard, connSize, hskip, emptyConn]
    | cons c rest =>
      have hc : c.sizeC = 0 := by
        rw [hf] at hfac
        simpa [List.headD] using hfac
      unfold sendQuery popFactory
      rw [hf]
      simp [hs, hf, needToSkipUnavailableShard, connSize, hskip, hc]
  have hneed : needToSkipUnavailableShard (sendQuery st) = true := by
    rw [h1]
    cases hf : st.factories with
    | nil => simp [needToSkipUnavailableShard, connSize, emptyConn, hskip]
    | cons c rest =>
      have hc : c.sizeC = 0 := by
        rw [hf] at hfac
        simpa [List.headD] using hfac
      simp [needToSkipUnavailableShard, connSize, hskip, hc, List.headD]
  refine ⟨by rw [h1], by rw [h1]; exact hs, sendQuery st, ?_, by rw [h1]⟩
  show readGo (fuel + 1) .start st = (sendQuery st, .ok (.data Block.empty))
  simp only [readGo, hs, Bool.false_eq_true, if_false, hneed, if_true]

/-- A fresh executor whose factory yields no usable connection, with
skip_unavailable_shards enabled. -/
def skipSt : St :=
  { baseSt with
    ex := { baseFlags with sent_query := false },
    conn := none,
    factories := [emptyConn],
    settings := { skip_unavailable_shards := true, enable_scalar_subquery_optimization := false } }

/-- Witness for C7: a fresh executor over an empty factory with the skip
setting enabled reads the terminal empty block at once. -/
theorem claim_C7_witness :
    skipSt.ex.sent_query = false ∧
    skipSt.settings.skip_unavailable_shards = true ∧
    (skipSt.factories.headD emptyConn).sizeC = 0 ∧
    (sendQuery skipSt).trace = skipSt.trace ∧
    (sendQuery skipSt).ex.sent_query = false ∧
    ∃ st', read 1 skipSt = (st', .ok (.data Block.empty)) ∧ st'.trace = skipSt.trace := by
  have h := claim_C7 0 skipSt rfl rfl (by decide)
  exact ⟨rfl, rfl, by decide, h.1, h.2.1, h.2.2⟩

/-! ### C10: readBlock returns the first Data result, discarding tokens -/

/-- Claim C10: readBlock loops over read and returns the block of the
first result of type Data (the terminal empty block included, since it is
a Data result), silently discarding every ParallelReplicasToken result in
between; any raised error propagates. -/
theorem claim_C10 (fuel : Nat) (st st1 : St) (r : RRes)
    (h : read (fuel + 1) st = (st1, r)) :
    (∀ b, r = .ok (.data b) → readBlock (fuel + 1) st = (st1, .ok b)) ∧
    (r = .ok .parallelReplicasToken → readBlock (fuel + 1) st = readBlock fuel st1) ∧
    (∀ e, r = .err e → readBlock (fuel + 1) st = (st1, .err e)) := by
  refine ⟨?_, ?_, ?_⟩
  · intro b hb
    rw [hb] at h
    simp only [readBlock, h]
  · intro hb
    rw [hb] at h
    simp only [readBlock, h]
  · intro e hb
    rw [hb] at h
    simp only [readBlock, h]

/-- Witness for C10: over the single inbound EndOfStream, read yields the
terminal empty Data result and readBlock surfaces its block. -/
theorem claim_C10_witness :
    read 2 baseSt = ((read 2 baseSt).1, .ok (.data Block.empty)) ∧
    readBlock 2 baseSt = ((read 2 baseSt).1, .ok Block.empty) := by
  have h0 : read 2 baseSt = ((read 2 baseSt).1, .ok (.data Block.empty)) := by decide
  exact ⟨h0, (claim_C10 1 baseSt (read 2 baseSt).1 (.ok (.data Block.empty)) h0).1
    Block.empty rfl⟩

/-! ### C2: the duplicate-UUID retry happens at most once -/

/-- Claim C2: the duplicate-UUID restart cancels and disconnects; on a
first duplicate event (resent_query still unset, synchronous path) it
clears sent_query and got_duplicated_part_uuids and re-enters read, whose
implicit resend carries the accumulated duplicated_part_uuids as ignored
parts ahead of the query packet; on a second duplicate event
(resent_query already set) it raises DuplicatedPartUUIDs. -/
theorem claim_C2 (fuel : Nat) (st : St) :
    (st.ex.resent_query = true →
      ∃ st', restartQueryWithoutDuplicatedUUIDs (fuel + 1) st =
        (st', .err .duplicatedPartUUIDs)) ∧
    (st.ex.resent_query = false → st.read_context = false →
      ∃ st', restartQueryWithoutDuplicatedUUIDs (fuel + 1) st = read fuel st' ∧
        st'.ex.sent_query = false ∧ st'.ex.got_duplicated_part_uuids = false ∧
        st'.ex.resent_query = true ∧ st'.ex.recreate_read_context = true ∧
        st'.duplicated_part_uuids = st.duplicated_part_uuids ∧
        st'.trace = st.trace ++ [.disconnect]) ∧
    (st.ex.sent_query = false → st.ex.was_cancelled = false →
      st.settings.skip_unavailable_shards = false → st.duplicated_part_uuids ≠ [] →
      ∃ tail, (sendQuery st).trace =
          st.trace ++ .ignoredPartUUIDs st.duplicated_part_uuids :: .query :: tail ∧
        (sendQuery st).ex.sent_query = true) := by
  refine ⟨?_, ?_, ?_⟩
  · intro hr
    refine ⟨emit .disconnect (cancelOp st), ?_⟩
    have hres : (emit .disconnect (cancelOp st)).ex.resent_query = true := by
      simp only [emit, cancelOp]
      split
      · exact hr
      · simp only [tryCancel]
        split
        · exact hr
        · split <;> simp [emit, hr]
    simp only [restartQueryWithoutDuplicatedUUIDs, readGo, hres, if_true]
  · intro hr hrc
    have hco : cancelOp st = { st with ext_cancelled := true } := by
      simp [cancelOp, isQueryPending, hrc]
    refine ⟨{ st with
        ext_cancelled := true,
        trace := st.trace ++ [.disconnect],
        ex := { st.ex with
          resent_query := true,
          recreate_read_context := true,
          sent_query := false,
          got_duplicated_part_uuids := false } },
      ?_, rfl, rfl, rfl, rfl, rfl, rfl⟩
    simp only [restartQueryWithoutDuplicatedUUIDs, readGo, hco, emit, hr, hrc, read,
      Bool.false_eq_true, if_false]
  · intro hs hw hskip hd
    have hde : st.duplicated_part_uuids.isEmpty = false := by
      cases hdp : st.duplicated_part_uuids with
      | nil => exact absurd hdp hd
      | cons a l => rfl
    cases hf : st.factories with
    | nil =>
      unfold sendQuery popFactory
      rw [hf]
      by_cases hsc : st.settings.enable_scalar_subquery_optimization = true
      · refine ⟨[.scalars, .externalTables], ?_, ?_⟩ <;>
          simp [hs, hw, hde, hsc, needToSkipUnavailableShard, hskip, emit, sendExternalTables]
      · simp only [Bool.not_eq_true] at hsc
        refine ⟨[.externalTables], ?_, ?_⟩ <;>
          simp [hs, hw, hde, hsc, needToSkipUnavailableShard, hskip, emit, sendExternalTables]
    | cons c rest =>
      unfold sendQuery popFactory
      rw [hf]
      by_cases hsc : st.settings.enable_scalar_subquery_optimization = true
      · refine ⟨[.scalars, .externalTables], ?_, ?_⟩ <;>
          simp [hs, hw, hde, hsc, needToSkipUnavailableShard, hskip, emit, sendExternalTables]
      · simp only [Bool.not_eq_true] at hsc
        refine ⟨[.externalTables], ?_, ?_⟩ <;>
          simp [hs, hw, hde, hsc, needToSkipUnavailableShard, hskip, emit, sendExternalTables]

/-- A state that has already retried once, with a fresh duplicate event
pending and the accumulated duplicate UUIDs not yet resent. -/
def retriedSt : St :=
  { baseSt with
    ex := { baseFlags with sent_query := false, resent_query := true },
    duplicated_part_uuids := [1] }

/-- Witness for C2: a second duplicate event on an executor that already
retried raises DuplicatedPartUUIDs. -/
theorem claim_C2_witness :
    retriedSt.ex.resent_query = true ∧
    (∃ st', restartQueryWithoutDuplicatedUUIDs 1 retriedSt =
      (st', .err .duplicatedPartUUIDs)) :=
  ⟨rfl, (claim_C2 0 retriedSt).1 rfl⟩

/-! ### C5: constant header columns adapt to constants of the block's row count -/

/-- Casting never changes the payload of a column. -/
theorem castColumn_data (c : Column) (t : Ty) : (castColumn c t).data = c.data := by
  unfold castColumn
  split <;> rfl

/-- Resizing preserves constness. -/
theorem isConstData_resizeData (d : ColData) (n : Nat) :
    isConstData (resizeData d n) = isConstData d := by
  cases d <;> rfl

/-- Resizing yields the requested length. -/
theorem colLength_resizeData (d : ColData) (n : Nat) :
    colLength (resizeData d n) = n := by
  cases d with
  | const v len => rfl
  | plain vs =>
    simp only [resizeData, colLength, List.length_append, List.length_take,
      List.length_replicate]
    omega

/-- The adapted payload for a constant header column is a constant of the
inbound block's row count; when the value cannot be taken from the block,
it is the header's constant resized. -/
theorem adaptColumnData_const (block : Block) (elem : Column) (d : ColData)
    (hc : isConstData elem.data = true)
    (hd : adaptColumnData block elem = some d) :
    isConstData d = true ∧ colLength d = block.rows ∧
    (¬(0 < block.rows ∧ block.has elem.name = true) →
      d = resizeData elem.data block.rows) := by
  simp only [adaptColumnData, hc, if_true] at hd
  by_cases h : 0 < block.rows ∧ block.has elem.name = true
  · rw [if_pos h] at hd
    obtain ⟨bc, hbc⟩ : ∃ bc, block.getByName elem.name = some bc :=
      Option.isSome_iff_exists.mp h.2
    rw [hbc] at hd
    simp only [Option.map_some', Option.some.injEq, castColumn_data] at hd
    by_cases hcc : isConstData (cutData bc.data) = true
    · rw [if_pos hcc] at hd
      refine ⟨?_, ?_, fun habs => absurd h habs⟩
      · rw [← hd, isConstData_resizeData]
        exact hcc
      · rw [← hd, colLength_resizeData]
    · rw [if_neg hcc] at hd
      exact ⟨by rw [← hd]; rfl, by rw [← hd]; rfl, fun habs => absurd h habs⟩
  · rw [if_neg h] at hd
    have hd' := Option.some.inj hd
    refine ⟨?_, ?_, fun _ => hd'.symm⟩
    · rw [← hd', isConstData_resizeData]
      exact hc
    · rw [← hd', colLength_resizeData]

/-- Indexed characterization of the adapter loop: the output columns are
in one-to-one positional correspondence with the header columns, each
carrying the header's name and type with the adapted payload. -/
theorem adaptCols_spec (block : Block) :
    ∀ (l cs : List Column), adaptCols block l = some cs →
      cs.length = l.length ∧
      ∀ i (h : i < l.length) (h' : i < cs.length),
        ∃ d, adaptColumnData block (l.get ⟨i, h⟩) = some d ∧
          cs.get ⟨i, h'⟩ =
            { name := (l.get ⟨i, h⟩).name, ty := (l.get ⟨i, h⟩).ty, data := d } := by
  intro l
  induction l with
  | nil =>
    intro cs hcs
    simp only [adaptCols, Option.some.injEq] at hcs
    subst hcs
    exact ⟨rfl, fun i h _ => absurd h (Nat.not_lt_zero i)⟩
  | cons e es ih =>
    intro cs hcs
    simp only [adaptCols] at hcs
    cases hd : adaptColumnData block e with
    | none => rw [hd] at hcs; simp at hcs
    | some d =>
      cases hds : adaptCols block es with
      | none => rw [hd, hds] at hcs; simp at hcs
      | some ds =>
        rw [hd, hds] at hcs
        simp only [Option.some.injEq] at hcs
        subst hcs
        obtain ⟨hlen, hidx⟩ := ih ds hds
        refine ⟨by simp [hlen], ?_⟩
        intro i h h'
        cases i with
        | zero => exact ⟨d, hd, rfl⟩
        | succ j =>
          exact hidx j (Nat.lt_of_succ_lt_succ h) (Nat.lt_of_succ_lt_succ h')

/-- Claim C5: for a non-empty header, every constant header column yields
an output column (at the same position, with the header's name) that is a
constant column of length equal to the inbound block's row count; when
the value is not taken from the block, it is the header constant
resized. -/
theorem claim_C5 (block header res : Block)
    (hne : header.cols.isEmpty = false)
    (hres : adaptBlockStructure block header = some res) :
    res.cols.length = header.cols.length ∧
    ∀ i (h : i < header.cols.length),
      isConstData (header.cols.get ⟨i, h⟩).data = true →
      ∃ (h' : i < res.cols.length),
        isConstData (res.cols.get ⟨i, h'⟩).data = true ∧
        colLength (res.cols.get ⟨i, h'⟩).data = block.rows ∧
        (res.cols.get ⟨i, h'⟩).name = (header.cols.get ⟨i, h⟩).name ∧
        (¬(0 < block.rows ∧ block.has (header.cols.get ⟨i, h⟩).name = true) →
          (res.cols.get ⟨i, h'⟩).data =
            resizeData (header.cols.get ⟨i, h⟩).data block.rows) := by
  unfold adaptBlockStructure at hres
  rw [hne] at hres
  simp only [Bool.false_eq_true, if_false] at hres
  cases hcs : adaptCols block header.cols with
  | none => rw [hcs] at hres; simp at hres
  | some cs =>
    rw [hcs] at hres
    simp only [Option.map_some', Option.some.injEq] at hres
    obtain ⟨hlen, hidx⟩ := adaptCols_spec block header.cols cs hcs
    subst hres
    refine ⟨hlen, ?_⟩
    intro i h hc
    have h' : i < cs.length := by rw [hlen]; exact h
    refine ⟨h', ?_⟩
    obtain ⟨d, hd, hget⟩ := hidx i h h'
    have hconst := adaptColumnData_const block (header.cols.get ⟨i, h⟩) d hc hd
    rw [hget]
    exact ⟨hconst.1, hconst.2.1, rfl, hconst.2.2⟩

/-- A one-constant-column header. -/
def hdr1 : Block := { cols := [{ name := 0, ty := 0, data := .const 7 1 }], info := Block.empty.info }

/-- A three-row inbound block carrying the constant as materialized. -/
def blk1 : Block :=
  { cols := [{ name := 0, ty := 0, data := .plain [5, 5, 5] }],
    info := { bucket_num := 3, is_overflows := false } }

/-- The adapted result: the constant rematerialized over three rows. -/
def res1 : Block := { cols := [{ name := 0, ty := 0, data := .const 5 3 }], info := blk1.info }

/-- Witness for C5: adapting the three-row block to the constant header
produces a constant column of length three. -/
theorem claim_C5_witness :
    hdr1.cols.isEmpty = false ∧
    adaptBlockStructure blk1 hdr1 = some res1 ∧
    ∃ h' : 0 < res1.cols.length,
      isConstData (res1.cols.get ⟨0, h'⟩).data = true ∧
      colLength (res1.cols.get ⟨0, h'⟩).data = blk1.rows := by
  have h := claim_C5 blk1 hdr1 res1 (by decide) (by decide)
  obtain ⟨h', hconst, hlen, -, -⟩ := h.2 0 (by decide) (by decide)
  exact ⟨by decide, by decide, h', hconst, hlen⟩

/-! ### C6: the adapter is idempotent on schema-matching blocks -/

/-- Any successfully adapted payload has the inbound block's row count
(the block invariant is needed for the plain-cast branch). -/
theorem adaptColumnData_length (block : Block) (hwf : wellFormed block)
    (e : Column) (d : ColData) (hd : adaptColumnData block e = some d) :
    colLength d = block.rows := by
  by_cases hc : isConstData e.data = true
  · exact (adaptColumnData_const block e d hc hd).2.1
  · simp only [Bool.not_eq_true] at hc
    simp only [adaptColumnData, hc, Bool.false_eq_true, if_false] at hd
    cases hbc : block.getByName e.name with
    | none => rw [hbc] at hd; simp at hd
    | some bc =>
      rw [hbc] at hd
      simp only [Option.map_some', Option.some.injEq, castColumn_data] at hd
      rw [← hd]
      exact hwf bc (List.mem_of_find?_eq_some (by simpa [Block.getByName] using hbc))

/-- On the adapter output the lookup of a header name finds exactly the
column produced for that header entry (header names must be distinct). -/
theorem adaptCols_getByName (block : Block) :
    ∀ (l cs : List Column), adaptCols block l = some cs →
      (l.map Column.name).Nodup →
      ∀ e ∈ l, ∀ d, adaptColumnData block e = some d →
        cs.find? (fun c => c.name == e.name) =
          some { name := e.name, ty := e.ty, data := d } := by
  intro l
  induction l with
  | nil => intro cs _ _ e he; exact absurd he (List.not_mem_nil e)
  | cons e0 es ih =>
    intro cs hcs hnd e he d hd
    simp only [adaptCols] at hcs
    cases hd0 : adaptColumnData block e0 with
    | none => rw [hd0] at hcs; simp at hcs
    | some d0 =>
      cases hds : adaptCols block es with
      | none => rw [hd0, hds] at hcs; simp at hcs
      | some ds =>
        rw [hd0, hds] at hcs
        simp only [Option.some.injEq] at hcs
        subst hcs
        simp only [List.map_cons, List.nodup_cons] at hnd
        rcases List.mem_cons.mp he with he0 | hes
        · subst he0
          rw [hd0] at hd
          have hdd := Option.some.inj hd
          simp [List.find?_cons, hdd]
        · have hne : (e0.name == e.name) = false := by
            have h1 : e.name ∈ es.map Column.name := List.mem_map_of_mem Column.name hes
            simp only [beq_eq_false_iff_ne, ne_eq]
            intro hEq
            exact hnd.1 (hEq ▸ h1)
          rw [List.find?_cons]
          simp only [hne]
          exact ih ds hds hnd.2 e hes d hd

/-- Re-adapting one column of the adapter's own output reproduces the
same payload. -/
theorem adaptColumnData_idem (block R : Block) (e : Column) (d : ColData)
    (hd : adaptColumnData block e = some d)
    (hrows : R.rows = block.rows)
    (hget : R.getByName e.name = some { name := e.name, ty := e.ty, data := d }) :
    adaptColumnData R e = some d := by
  by_cases hc : isConstData e.data = true
  · obtain ⟨hdc, hdl, hdalt⟩ := adaptColumnData_const block e d hc hd
    by_cases hpos : 0 < block.rows
    · have hhas : R.has e.name = true := by
        unfold Block.has
        rw [hget]
        rfl
      simp only [adaptColumnData, hc, if_true]
      rw [if_pos ⟨by rw [hrows]; exact hpos, hhas⟩]
      rw [hget]
      simp only [Option.map_some', Option.some.injEq, castColumn_data]
      cases d with
      | plain vs => simp [isConstData] at hdc
      | const v len =>
        have hlen : len = block.rows := hdl
        simp only [cutData, isConstData, if_true, resizeData]
        rw [hrows, hlen]
    · have hz : block.rows = 0 := Nat.eq_zero_of_not_pos hpos
      have hd0 : d = resizeData e.data block.rows := hdalt (fun hh => hpos hh.1)
      simp only [adaptColumnData, hc, if_true]
      rw [if_neg (by rw [hrows, hz]; simp)]
      rw [hrows, hd0]
  · simp only [Bool.not_eq_true] at hc
    simp only [adaptColumnData, hc, Bool.false_eq_true, if_false] at hd ⊢
    rw [hget]
    simp only [Option.map_some', Option.some.injEq, castColumn_data]

/-- If every header column re-adapts to the same payload, the whole loop
reproduces its output. -/
theorem adaptCols_congr (block R : Block) :
    ∀ (l cs : List Column), adaptCols block l = some cs →
      (∀ e ∈ l, ∀ d, adaptColumnData block e = some d → adaptColumnData R e = some d) →
      adaptCols R l = some cs := by
  intro l
  induction l with
  | nil => intro cs hcs _; exact hcs
  | cons e es ih =>
    intro cs hcs hall
    simp only [adaptCols] at hcs ⊢
    cases hd : adaptColumnData block e with
    | none => rw [hd] at hcs; simp at hcs
    | some d =>
      cases hds : adaptCols block es with
      | none => rw [hd, hds] at hcs; simp at hcs
      | some ds =>
        rw [hd, hds] at hcs
        rw [hall e (List.mem_cons_self e es) d hd,
          ih ds hds fun e' he' d' hd' => hall e' (List.mem_cons_of_mem e he') d' hd']
        exact hcs

/-- Claim C6: for a well-formed block whose schema equals the header
(distinct header names), adapting twice equals adapting once:
the adapter output is a fixed point of the adapter. -/
theorem claim_C6 (block header res : Block)
    (_hschema : schemaEq block header)
    (hwf : wellFormed block)
    (hnodup : (header.cols.map Column.name).Nodup)
    (hres : adaptBlockStructure block header = some res) :
    adaptBlockStructure res header = some res := by
  by_cases hne : header.cols.isEmpty = true
  · unfold adaptBlockStructure
    rw [if_pos hne]
  · have hne' : header.cols.isEmpty = false := by simpa using hne
    unfold adaptBlockStructure at hres ⊢
    rw [hne'] at hres ⊢
    simp only [Bool.false_eq_true, if_false] at hres ⊢
    cases hcs : adaptCols block header.cols with
    | none => rw [hcs] at hres; simp at hres
    | some cs =>
      rw [hcs] at hres
      simp only [Option.map_some', Option.some.injEq] at hres
      subst hres
      have hspec := adaptCols_spec block header.cols cs hcs
      have hlpos : 0 < header.cols.length := by
        cases hl : header.cols with
        | nil => rw [hl] at hne'; simp at hne'
        | cons a l => simp [hl]
      have hcpos : 0 < cs.length := by rw [hspec.1]; exact hlpos
      obtain ⟨d0, hd0, hg0⟩ := hspec.2 0 hlpos hcpos
      have hrows : (Block.mk cs block.info).rows = block.rows := by
        cases hcl : cs with
        | nil => rw [hcl] at hcpos; exact absurd hcpos (by simp)
        | cons c0 cs' =>
          subst hcl
          have hlen0 : colLength d0 = block.rows :=
            adaptColumnData_length block hwf _ d0 hd0
          have hc0 : c0.data = d0 := by
            rw [show c0 = (c0 :: cs').get ⟨0, hcpos⟩ from rfl, hg0]
          show colLength c0.data = block.rows
          rw [hc0]
          exact hlen0
      have hstep : ∀ e ∈ header.cols, ∀ d, adaptColumnData block e = some d →
          adaptColumnData (Block.mk cs block.info) e = some d := by
        intro e he d hd
        refine adaptColumnData_idem block (Block.mk cs block.info) e d hd hrows ?_
        show (Block.mk cs block.info).getByName e.name = _
        unfold Block.getByName
        exact adaptCols_getByName block header.cols cs hcs hnodup e he d hd
      rw [adaptCols_congr block (Block.mk cs block.info) header.cols cs hcs hstep]
      rfl

/-- A zero-row block with the constant header's schema but a different
constant value: its adapter image differs from it, yet is a fixed
point. -/
def blkZ : Block :=
  { cols := [{ name := 0, ty := 0, data := .const 9 0 }], info := Block.empty.info }

/-- The adapter image of the zero-row block: the header constant resized
to zero rows. -/
def resZ : Block :=
  { cols := [{ name := 0, ty := 0, data := .const 7 0 }], info := blkZ.info }

/-- Witness for C6: the zero-row constant block adapts to the resized
header constant, and re-adapting that output reproduces it exactly. -/
theorem claim_C6_witness :
    schemaEq blkZ hdr1 ∧ wellFormed blkZ ∧
    (hdr1.cols.map Column.name).Nodup ∧
    adaptBlockStructure blkZ hdr1 = some resZ ∧
    adaptBlockStructure resZ hdr1 = some resZ := by
  refine ⟨by unfold schemaEq; decide, ?_, by decide, by decide, ?_⟩
  · intro c hc
    fin_cases hc
    rfl
  · exact claim_C6 blkZ hdr1 resZ (by unfold schemaEq; decide)
      (by intro c hc; fin_cases hc; rfl) (by decide) (by decide)

end RQE
